import Mathlib

/-
Verification of the `failerr` module (src/failerr.ts).

The module is embedded shallowly over a small model of JavaScript runtime
values.  Objects live in an explicit heap (a list of object records indexed
by allocation order), so that reference identity is the equality of heap
indices and cyclic object graphs are representable (an object's field may
hold a reference to any index, including its own).  Symbols are modelled by
natural-number identities: `Symbol('fail')` evaluated at module
instantiation yields a fresh identity, and a second instantiation of the
module would yield a different one, so the recognizer and constructor are
parametrised by the symbol identity their module instance closed over.
-/

namespace Failerr

/-- A JavaScript runtime value: primitives, null, undefined, arrays, and
references into the object heap. -/
inductive Value where
  | num (n : Int)
  | str (s : String)
  | boolean (b : Bool)
  | jsNull
  | undef
  | arr (elems : List Value)
  | ref (r : Nat)

/-- A heap object: its string-keyed own properties, its symbol-keyed own
properties (symbols named by their numeric identity), and whether the object
has been frozen by `Object.freeze`. -/
structure Obj where
  fields : List (String × Value)
  symKeys : List (Nat × Value)
  frozen : Bool

/-- The heap: objects indexed by allocation order. -/
abbrev Heap := List Obj

/-- `Object.prototype.toString.call(v)`, the tag string JavaScript reports
for each shape of value. -/
def jsTypeTag : Value → String
  | .num _ => "[object Number]"
  | .str _ => "[object String]"
  | .boolean _ => "[object Boolean]"
  | .jsNull => "[object Null]"
  | .undef => "[object Undefined]"
  | .arr _ => "[object Array]"
  | .ref _ => "[object Object]"

/-- `const isObject = (item: any): item is Object =>
  toString.call(item) === '[object Object]';` -/
def isObject (item : Value) : Bool :=
  jsTypeTag item == "[object Object]"

/-- Dereference a value: `some o` when the value is a reference resolving to
object `o` in the heap, `none` otherwise. -/
def lookupRef (h : Heap) (v : Value) : Option Obj :=
  match v with
  | .ref r => h[r]?
  | _ => none

/-- The `sym in o` test on an object: whether the symbol with identity `s`
is present among the object's own symbol-keyed properties. -/
def hasSym (o : Obj) (s : Nat) : Bool :=
  (o.symKeys.lookup s).isSome

/-- The identity of the symbol produced by `const __fail__ = Symbol('fail');`
when this module instance was evaluated. -/
def __fail__ : Nat := 0

/-- `const empty = Object.freeze(Object.create(null));` : an object with no
own properties, frozen. -/
def emptyObj : Obj := { fields := [], symKeys := [], frozen := true }

/-- The heap index at which the module's shared `empty` object was allocated
when the module was evaluated. -/
def emptyRef : Nat := 0

/-- The heap just after module evaluation: it holds the single shared
`empty` object. -/
def initHeap : Heap := [emptyObj]

/-- TypeScript default-parameter resolution for `data: D = empty`: the
default is used when the argument is omitted (`none`) or is explicitly
`undefined`. -/
def resolveData : Option Value → Value
  | none => .ref emptyRef
  | some .undef => .ref emptyRef
  | some v => v

/-- `mkFail`, generalised over the identity `sym` of the symbol the module
instance closed over: allocates `{ [__fail__]: true, message, data }` as a
fresh (unfrozen) object and returns the updated heap and a reference to the
new object. -/
def mkFailWith (sym : Nat) (h : Heap) (message : String) (data : Option Value) :
    Heap × Value :=
  let d := resolveData data
  let o : Obj := { fields := [("message", .str message), ("data", d)],
                   symKeys := [(sym, .boolean true)], frozen := false }
  (h ++ [o], .ref h.length)

/-- `export const mkFail = (message, data = empty) =>
  ({ [__fail__]: true, message, data });` for this module instance. -/
def mkFail (h : Heap) (message : String) (data : Option Value) : Heap × Value :=
  mkFailWith __fail__ h message data

/-- `isFail`, generalised over the identity `sym` of the symbol the module
instance closed over: `isObject(val) && sym in val`. -/
def isFailWith (sym : Nat) (h : Heap) (val : Value) : Bool :=
  isObject val &&
    (match lookupRef h val with
     | some o => hasSym o sym
     | none => false)

/-- `export const isFail = (val: any): val is Fail<any> =>
  isObject(val) && __fail__ in val;` for this module instance. -/
def isFail (h : Heap) (val : Value) : Bool := isFailWith __fail__ h val

/-- Property read `v[name]` for a string-keyed own property. -/
def getField (h : Heap) (v : Value) (name : String) : Option Value :=
  match lookupRef h v with
  | some o => o.fields.lookup name
  | none => none

/-- Association-list update used by property assignment. -/
def setEntry (l : List (String × Value)) (k : String) (w : Value) :
    List (String × Value) :=
  match l with
  | [] => [(k, w)]
  | (k', v') :: rest =>
      if k' = k then (k, w) :: rest else (k', v') :: setEntry rest k w

/-- Property assignment `v[name] = w` by arbitrary holder code (non-strict
semantics: the write is silently ignored on a frozen object or a
non-object). -/
def setField (h : Heap) (v : Value) (name : String) (w : Value) : Heap :=
  match v with
  | .ref r =>
      match h[r]? with
      | some o =>
          if o.frozen then h
          else h.set r { o with fields := setEntry o.fields name w }
      | none => h
  | _ => h

/-- Heaps reachable from module evaluation: `mkFail` calls by arbitrary code
interleaved with user allocations of plain objects.  The module-private
symbol is unforgeable — no other code can name it — so user allocations
cannot carry `__fail__` among their symbol keys. -/
inductive Reachable : Heap → Prop where
  | init : Reachable initHeap
  | mk (h : Heap) (m : String) (d : Option Value) : Reachable h →
      Reachable (mkFail h m d).1
  | user (h : Heap) (o : Obj) : Reachable h →
      o.symKeys.lookup __fail__ = none → Reachable (h ++ [o])

/-- Heaps reachable from module evaluation when holder mutation is also
accounted for: `mkFail` calls, user allocations (which still cannot forge
the module-private symbol), and property assignments performed by holders
of any value. -/
inductive ReachableM : Heap → Prop where
  | init : ReachableM initHeap
  | mk (h : Heap) (m : String) (d : Option Value) : ReachableM h →
      ReachableM (mkFail h m d).1
  | user (h : Heap) (o : Obj) : ReachableM h →
      o.symKeys.lookup __fail__ = none → ReachableM (h ++ [o])
  | set (h : Heap) (v : Value) (name : String) (w : Value) : ReachableM h →
      ReachableM (setField h v name w)

/-- Reading the freshly allocated object back from the extended heap. -/
theorem getElem?_concat (h : Heap) (o : Obj) : (h ++ [o])[h.length]? = some o :=
  List.getElem?_concat_length h o

/-- Appending to the heap preserves every pre-existing object. -/
theorem getElem?_append_lt (h : Heap) (l : List Obj) (i : Nat)
    (hi : i < h.length) : (h ++ l)[i]? = h[i]? :=
  List.getElem?_append_left hi

/-- Dereferencing the value returned by the constructor yields exactly the
record the constructor built. -/
theorem lookupRef_mkFail (sym : Nat) (h : Heap) (m : String) (d : Option Value) :
    lookupRef (mkFailWith sym h m d).1 (mkFailWith sym h m d).2
      = some { fields := [("message", Value.str m), ("data", resolveData d)],
               symKeys := [(sym, Value.boolean true)], frozen := false } :=
  getElem?_concat h _

/-- Reading the `data` field of a freshly constructed failure value. -/
theorem getField_mkFail_data (h : Heap) (m : String) (d : Option Value) :
    getField (mkFail h m d).1 (mkFail h m d).2 "data" = some (resolveData d) := by
  unfold getField
  rw [show lookupRef (mkFail h m d).1 (mkFail h m d).2
        = some { fields := [("message", Value.str m), ("data", resolveData d)],
                 symKeys := [(__fail__, Value.boolean true)], frozen := false }
      from lookupRef_mkFail __fail__ h m d]
  rfl

/-- Reading the `message` field of a freshly constructed failure value. -/
theorem getField_mkFail_message (h : Heap) (m : String) (d : Option Value) :
    getField (mkFail h m d).1 (mkFail h m d).2 "message" = some (.str m) := by
  unfold getField
  rw [show lookupRef (mkFail h m d).1 (mkFail h m d).2
        = some { fields := [("message", Value.str m), ("data", resolveData d)],
                 symKeys := [(__fail__, Value.boolean true)], frozen := false }
      from lookupRef_mkFail __fail__ h m d]
  rfl

/-- Growing the heap by fresh allocations does not change the fields of any
pre-existing object. -/
theorem getField_heap_grow (h : Heap) (l : List Obj) (r : Nat)
    (hr : r < h.length) (name : String) :
    getField (h ++ l) (.ref r) name = getField h (.ref r) name := by
  show (match (h ++ l)[r]? with
        | some o => List.lookup name o.fields
        | none => none)
      = (match h[r]? with
         | some o => List.lookup name o.fields
         | none => none)
  rw [getElem?_append_lt h l r hr]

/-- C1 — Round-trip of construction and recognition: for every heap, message
and data argument, the value returned by `mkFail` satisfies `isFail`. -/
theorem isFail_mkFail (h : Heap) (m : String) (d : Option Value) :
    isFail (mkFail h m d).1 (mkFail h m d).2 = true := by
  simp [isFail, isFailWith, mkFail, mkFailWith, lookupRef, isObject, jsTypeTag,
        hasSym, getElem?_concat, List.lookup]

/-- C2 — No false positives: a plain object that does not carry the
`__fail__` symbol among its own symbol keys is rejected by `isFail`, whatever
string-keyed fields (such as `message` or `data`) it has. -/
theorem isFail_no_discriminant (h : Heap) (r : Nat) (o : Obj)
    (hr : h[r]? = some o) (hs : o.symKeys.lookup __fail__ = none) :
    isFail h (.ref r) = false := by
  simp [isFail, isFailWith, lookupRef, hr, hasSym, hs, isObject, jsTypeTag]

/-- Witness for C2: a record with `message` and `data` fields but no
discriminant symbol is rejected. -/
theorem isFail_no_discriminant_witness :
    isFail [⟨[("message", Value.str "boom"), ("data", Value.ref 0)], [], false⟩]
      (.ref 0) = false :=
  isFail_no_discriminant _ 0
    ⟨[("message", Value.str "boom"), ("data", Value.ref 0)], [], false⟩ rfl rfl

/-- C3 — The constructor preserves its arguments exactly: for any data value
actually supplied (`undefined` is the marker of an omitted argument, see
`resolveData`), the constructed object's `message` field is the given string
and its `data` field is the very value passed in — for a reference value,
the same heap index, hence reference identity. -/
theorem mkFail_preserves_args (h : Heap) (m : String) (d : Value)
    (hd : d ≠ Value.undef) :
    getField (mkFail h m (some d)).1 (mkFail h m (some d)).2 "message"
        = some (.str m) ∧
    getField (mkFail h m (some d)).1 (mkFail h m (some d)).2 "data"
        = some d := by
  have hres : resolveData (some d) = d := by
    cases d <;> first | rfl | exact absurd rfl hd
  constructor <;>
    simp [getField, mkFail, mkFailWith, lookupRef, getElem?_concat, hres,
          List.lookup]

/-- Witness for C3: a concrete construction with a reference-typed data
argument. -/
theorem mkFail_preserves_args_witness :
    getField (mkFail initHeap "boom" (some (.ref 0))).1
        (mkFail initHeap "boom" (some (.ref 0))).2 "message"
        = some (.str "boom") ∧
    getField (mkFail initHeap "boom" (some (.ref 0))).1
        (mkFail initHeap "boom" (some (.ref 0))).2 "data"
        = some (.ref 0) :=
  mkFail_preserves_args initHeap "boom" (.ref 0) (by simp)

/-- C4 — Total, non-throwing recognition: `isFail` rejects every primitive,
absence value and array, and — being a total function over every heap and
value, cyclic object graphs included — yields a definite boolean on every
input. -/
theorem isFail_total_non_object (h : Heap) (n : Int) (s : String) (b : Bool)
    (xs : List Value) :
    isFail h (.num n) = false ∧ isFail h (.str s) = false ∧
    isFail h (.boolean b) = false ∧ isFail h .jsNull = false ∧
    isFail h .undef = false ∧ isFail h (.arr xs) = false ∧
    (∀ v : Value, isFail h v = false ∨ isFail h v = true) := by
  refine ⟨rfl, rfl, rfl, rfl, rfl, rfl, fun v => ?_⟩
  cases hb : isFail h v
  · exact Or.inl rfl
  · exact Or.inr rfl

/-- C5 — Shared frozen default data: on any heap that still holds the
module's shared `empty` object at its allocation slot, two successive
constructions with no data argument both point their `data` field at that
same slot (reference identity), the shared object is frozen and has no
fields, and each call allocates exactly one object — the failure record
itself, never a fresh empty container. -/
theorem mkFail_shared_empty_default (h : Heap) (m m' : String)
    (h0 : h[emptyRef]? = some emptyObj) :
    getField (mkFail (mkFail h m none).1 m' none).1 (mkFail h m none).2 "data"
        = some (.ref emptyRef) ∧
    getField (mkFail (mkFail h m none).1 m' none).1
        (mkFail (mkFail h m none).1 m' none).2 "data"
        = some (.ref emptyRef) ∧
    (mkFail (mkFail h m none).1 m' none).1[emptyRef]? = some emptyObj ∧
    emptyObj.frozen = true ∧ emptyObj.fields = [] ∧
    (mkFail (mkFail h m none).1 m' none).1.length = h.length + 2 := by
  have hl : emptyRef < h.length := (List.getElem?_eq_some.mp h0).1
  have hlen1 : (mkFail h m none).1.length = h.length + 1 := by
    simp [mkFail, mkFailWith]
  refine ⟨?_, ?_, ?_, rfl, rfl, by simp [mkFail, mkFailWith]⟩
  · have e1 : getField (mkFail (mkFail h m none).1 m' none).1
        (mkFail h m none).2 "data"
        = getField (mkFail h m none).1 (mkFail h m none).2 "data" :=
      getField_heap_grow (mkFail h m none).1 _ h.length (by omega) "data"
    exact e1.trans (getField_mkFail_data h m none)
  · exact getField_mkFail_data (mkFail h m none).1 m' none
  · have h2 : emptyRef < (mkFail h m none).1.length := by omega
    rw [show (mkFail (mkFail h m none).1 m' none).1
          = (mkFail h m none).1 ++
            [{ fields := [("message", Value.str m'), ("data", resolveData none)],
               symKeys := [(__fail__, Value.boolean true)],
               frozen := false }] from rfl,
        getElem?_append_lt _ _ _ h2,
        show (mkFail h m none).1 = h ++
            [{ fields := [("message", Value.str m), ("data", resolveData none)],
               symKeys := [(__fail__, Value.boolean true)],
               frozen := false }] from rfl,
        getElem?_append_lt _ _ _ hl, h0]

/-- Witness for C5: starting from the heap left by module evaluation
itself. -/
theorem mkFail_shared_empty_default_witness :
    getField (mkFail (mkFail initHeap "a" none).1 "b" none).1
        (mkFail initHeap "a" none).2 "data" = some (.ref emptyRef) ∧
    getField (mkFail (mkFail initHeap "a" none).1 "b" none).1
        (mkFail (mkFail initHeap "a" none).1 "b" none).2 "data"
        = some (.ref emptyRef) ∧
    (mkFail (mkFail initHeap "a" none).1 "b" none).1[emptyRef]?
        = some emptyObj ∧
    emptyObj.frozen = true ∧ emptyObj.fields = [] ∧
    (mkFail (mkFail initHeap "a" none).1 "b" none).1.length
        = initHeap.length + 2 :=
  mkFail_shared_empty_default initHeap "a" "b" rfl

/-- Recognition of a fresh construction, for an arbitrary pair of symbol
identities held by the recognizing and the constructing module instance:
it reduces to a lookup of the recognizer's symbol among the constructed
object's symbol keys. -/
theorem isFailWith_mkFailWith (sym sym' : Nat) (h : Heap) (m : String)
    (d : Option Value) :
    isFailWith sym' (mkFailWith sym h m d).1 (mkFailWith sym h m d).2
      = (List.lookup sym' [(sym, Value.boolean true)]).isSome := by
  unfold isFailWith
  rw [lookupRef_mkFail sym h m d]
  rfl

/-- Counterexample to C6 as stated: a separate module instantiation
evaluates `Symbol('fail')` afresh and closes over a distinct symbol
identity (here 1 instead of 0), so its `isFail` does not recognize a value
built by this instance's `mkFail`. -/
theorem isFail_other_instance_counterexample :
    isFailWith 1 (mkFail initHeap "boom" none).1
      (mkFail initHeap "boom" none).2 = false := by
  rfl

/-- C6 amended — the discriminant is not call-scoped but is
instance-scoped: any `isFail` holding the same symbol as the constructor
recognizes the value, across separate calls; an `isFail` from a separate
module instantiation or execution context holds a distinct symbol and
rejects the value. -/
theorem isFail_same_instance_only (sym sym' : Nat) (h : Heap) (m : String)
    (d : Option Value) (hne : sym' ≠ sym) :
    isFailWith sym (mkFailWith sym h m d).1 (mkFailWith sym h m d).2 = true ∧
    isFailWith sym' (mkFailWith sym h m d).1 (mkFailWith sym h m d).2
      = false := by
  constructor
  · rw [isFailWith_mkFailWith sym sym h m d]
    simp [List.lookup]
  · rw [isFailWith_mkFailWith sym sym' h m d]
    simp [List.lookup, beq_eq_false_iff_ne.mpr hne]

/-- Witness for the amended C6 at concrete symbol identities 0 and 1. -/
theorem isFail_same_instance_only_witness :
    isFailWith 0 (mkFailWith 0 initHeap "boom" none).1
        (mkFailWith 0 initHeap "boom" none).2 = true ∧
    isFailWith 1 (mkFailWith 0 initHeap "boom" none).1
        (mkFailWith 0 initHeap "boom" none).2 = false :=
  isFail_same_instance_only 0 1 initHeap "boom" none (by decide)

/-- Counterexample to C7 as stated: the object returned by `mkFail` is not
frozen, so a holder of the value can assign to its `message` property and
later reads observe the changed message. -/
theorem mkFail_mutable_counterexample :
    getField (mkFail initHeap "msg" none).1 (mkFail initHeap "msg" none).2
        "message" = some (.str "msg") ∧
    getField (setField (mkFail initHeap "msg" none).1
          (mkFail initHeap "msg" none).2 "message" (.num 42))
        (mkFail initHeap "msg" none).2 "message" = some (.num 42) := by
  constructor <;> rfl

/-- C7 amended — the module itself never mutates a failure value: `mkFail`
leaves every pre-existing heap object untouched (and `isFail` only reads);
but the constructed failure object is not frozen, so holders of the value
can mutate it. -/
theorem mkFail_module_never_mutates (h : Heap) (m : String) (d : Option Value)
    (i : Nat) (hi : i < h.length) :
    (mkFail h m d).1[i]? = h[i]? ∧
    lookupRef (mkFail h m d).1 (mkFail h m d).2
      = some { fields := [("message", Value.str m), ("data", resolveData d)],
               symKeys := [(__fail__, Value.boolean true)], frozen := false } ∧
    ({ fields := [("message", Value.str m), ("data", resolveData d)],
       symKeys := [(__fail__, Value.boolean true)], frozen := false } : Obj).frozen
      = false :=
  ⟨getElem?_append_lt h _ i hi, lookupRef_mkFail __fail__ h m d, rfl⟩

/-- Witness for the amended C7 at the module's initial heap. -/
theorem mkFail_module_never_mutates_witness :
    (mkFail initHeap "m" none).1[0]? = initHeap[0]? ∧
    lookupRef (mkFail initHeap "m" none).1 (mkFail initHeap "m" none).2
      = some { fields := [("message", Value.str "m"),
                          ("data", resolveData none)],
               symKeys := [(__fail__, Value.boolean true)], frozen := false } ∧
    ({ fields := [("message", Value.str "m"), ("data", resolveData none)],
       symKeys := [(__fail__, Value.boolean true)], frozen := false } : Obj).frozen
      = false :=
  mkFail_module_never_mutates initHeap "m" none 0 (by decide)

/-- Invariant of reachable heaps: every object carrying the module-private
symbol was built by `mkFail`, hence has a string `message` field and a
`data` field. -/
theorem reachable_discriminated_has_fields (h : Heap) (hr : Reachable h) :
    ∀ o ∈ h, hasSym o __fail__ = true →
      ∃ m d, o.fields.lookup "message" = some (Value.str m) ∧
             o.fields.lookup "data" = some d := by
  induction hr with
  | init =>
      intro o ho hs
      rcases List.mem_singleton.mp ho with rfl
      simp [hasSym, emptyObj, List.lookup] at hs
  | mk h m d _ ih =>
      intro o ho hs
      have ho' : o ∈ h ++
          [{ fields := [("message", Value.str m), ("data", resolveData d)],
             symKeys := [(__fail__, Value.boolean true)],
             frozen := false }] := ho
      rcases List.mem_append.mp ho' with h1 | h2
      · exact ih o h1 hs
      · rcases List.mem_singleton.mp h2 with rfl
        exact ⟨m, resolveData d, by simp [List.lookup], by simp [List.lookup]⟩
  | user h o' _ hnone ih =>
      intro o ho hs
      rcases List.mem_append.mp ho with h1 | h2
      · exact ih o h1 hs
      · rcases List.mem_singleton.mp h2 with rfl
        rw [hasSym, hnone] at hs
        cases hs

/-- A value accepted by `isFail` is a reference to an object carrying the
discriminant symbol. -/
theorem isFail_ref_discriminated (h : Heap) (v : Value)
    (hf : isFail h v = true) :
    ∃ r o, v = .ref r ∧ h[r]? = some o ∧ hasSym o __fail__ = true := by
  cases v with
  | ref r =>
      have hf' : (match h[r]? with
          | some o => hasSym o __fail__
          | none => false) = true := by
        have : isFail h (.ref r)
            = (isObject (.ref r) &&
               match h[r]? with
               | some o => hasSym o __fail__
               | none => false) := rfl
        rw [this] at hf
        simpa [isObject, jsTypeTag] using hf
      cases hc : h[r]? with
      | none => rw [hc] at hf'; cases hf'
      | some o =>
          rw [hc] at hf'
          exact ⟨r, o, rfl, hc, hf'⟩
  | num n => exact absurd hf (by simp [isFail, isFailWith, isObject, jsTypeTag])
  | str s => exact absurd hf (by simp [isFail, isFailWith, isObject, jsTypeTag])
  | boolean b =>
      exact absurd hf (by simp [isFail, isFailWith, isObject, jsTypeTag])
  | jsNull => exact absurd hf (by simp [isFail, isFailWith, isObject, jsTypeTag])
  | undef => exact absurd hf (by simp [isFail, isFailWith, isObject, jsTypeTag])
  | arr xs => exact absurd hf (by simp [isFail, isFailWith, isObject, jsTypeTag])

/-- Reading a field of a resolved reference goes through the object's
association list. -/
theorem getField_of_getElem (h : Heap) (r : Nat) (o : Obj)
    (hc : h[r]? = some o) (name : String) :
    getField h (.ref r) name = List.lookup name o.fields := by
  show (match h[r]? with
        | some o => List.lookup name o.fields
        | none => none) = _
  rw [hc]

/-- Unfolding `setField` on a reference value. -/
theorem setField_ref_eq (h : Heap) (r : Nat) (name : String) (w : Value) :
    setField h (.ref r) name w
      = match h[r]? with
        | some o =>
            if o.frozen then h
            else h.set r { o with fields := setEntry o.fields name w }
        | none => h := rfl

/-- Property assignment updates the assigned key and leaves every other key
of the association list unchanged. -/
theorem lookup_setEntry (l : List (String × Value)) (k k' : String)
    (w : Value) :
    List.lookup k' (setEntry l k w)
      = if k' = k then some w else List.lookup k' l := by
  induction l with
  | nil =>
      show List.lookup k' [(k, w)] = _
      by_cases hk : k' = k
      · simp [List.lookup, hk]
      · simp [List.lookup, beq_eq_false_iff_ne.mpr hk, hk]
  | cons hd tl ih =>
      obtain ⟨k₀, v₀⟩ := hd
      by_cases h0 : k₀ = k
      · subst h0
        rw [show setEntry ((k₀, v₀) :: tl) k₀ w = (k₀, w) :: tl
              from by simp [setEntry]]
        by_cases hk : k' = k₀
        · simp [List.lookup, hk]
        · simp [List.lookup, beq_eq_false_iff_ne.mpr hk, hk]
      · rw [show setEntry ((k₀, v₀) :: tl) k w = (k₀, v₀) :: setEntry tl k w
              from by simp [setEntry, h0]]
        by_cases hk : k' = k₀
        · subst hk
          simp [List.lookup, h0]
        · simp [List.lookup, beq_eq_false_iff_ne.mpr hk, ih]

/-- Invariant of mutation-inclusive reachable heaps: every object carrying
the module-private symbol still has `message` and `data` fields present —
`mkFail` put them there and assignment can overwrite but never remove a
field — though their values may have been changed by holders. -/
theorem reachableM_discriminated_has_fields (h : Heap) (hr : ReachableM h) :
    ∀ o ∈ h, hasSym o __fail__ = true →
      (List.lookup "message" o.fields).isSome = true ∧
      (List.lookup "data" o.fields).isSome = true := by
  induction hr with
  | init =>
      intro o ho hs
      rcases List.mem_singleton.mp ho with rfl
      simp [hasSym, emptyObj, List.lookup] at hs
  | mk h m d _ ih =>
      intro o ho hs
      have ho' : o ∈ h ++
          [{ fields := [("message", Value.str m), ("data", resolveData d)],
             symKeys := [(__fail__, Value.boolean true)],
             frozen := false }] := ho
      rcases List.mem_append.mp ho' with h1 | h2
      · exact ih o h1 hs
      · rcases List.mem_singleton.mp h2 with rfl
        exact ⟨by simp [List.lookup], by simp [List.lookup]⟩
  | user h o' _ hnone ih =>
      intro o ho hs
      rcases List.mem_append.mp ho with h1 | h2
      · exact ih o h1 hs
      · rcases List.mem_singleton.mp h2 with rfl
        rw [hasSym, hnone] at hs
        cases hs
  | set h v name w _ ih =>
      intro o ho hs
      cases v with
      | ref r =>
          rw [setField_ref_eq] at ho
          cases hc : h[r]? with
          | none => rw [hc] at ho; exact ih o ho hs
          | some o₀ =>
              rw [hc] at ho
              have ho' : o ∈ (if o₀.frozen = true then h
                  else h.set r { fields := setEntry o₀.fields name w,
                                 symKeys := o₀.symKeys,
                                 frozen := o₀.frozen }) := ho
              by_cases hf : o₀.frozen = true
              · rw [if_pos hf] at ho'
                exact ih o ho' hs
              · rw [if_neg hf] at ho'
                rcases List.mem_or_eq_of_mem_set ho' with h1 | rfl
                · exact ih o h1 hs
                · have hs₀ : hasSym o₀ __fail__ = true := hs
                  obtain ⟨hm, hd⟩ :=
                    ih o₀ (List.getElem?_mem hc) hs₀
                  refine ⟨?_, ?_⟩
                  · show (List.lookup "message"
                        (setEntry o₀.fields name w)).isSome = true
                    rw [lookup_setEntry]
                    split
                    · rfl
                    · exact hm
                  · show (List.lookup "data"
                        (setEntry o₀.fields name w)).isSome = true
                    rw [lookup_setEntry]
                    split
                    · rfl
                    · exact hd
      | num n => exact ih o ho hs
      | str s => exact ih o ho hs
      | boolean b => exact ih o ho hs
      | jsNull => exact ih o ho hs
      | undef => exact ih o ho hs
      | arr xs => exact ih o ho hs

/-- Counterexample to C8 as stated: the failure record is not frozen, so a
holder can overwrite `message` with a number; `isFail` still accepts the
value while its `message` field is no longer a string. -/
theorem isFail_mutated_message_counterexample :
    isFail (setField (mkFail initHeap "msg" none).1
        (mkFail initHeap "msg" none).2 "message" (.num 42))
      (mkFail initHeap "msg" none).2 = true ∧
    getField (setField (mkFail initHeap "msg" none).1
        (mkFail initHeap "msg" none).2 "message" (.num 42))
      (mkFail initHeap "msg" none).2 "message" = some (.num 42) := by
  constructor <;> rfl

/-- C8 amended — recognition guarantees field presence, but well-typedness
only absent mutation: on any heap reachable from module evaluation with
holder mutations accounted for, a value accepted by `isFail` has `message`
and `data` fields present; on a heap reachable without any mutation, the
`message` field moreover holds a string. -/
theorem isFail_guarantees_fields_amended (h : Heap) (v : Value) :
    (ReachableM h → isFail h v = true →
       ∃ mv dv, getField h v "message" = some mv ∧
                getField h v "data" = some dv) ∧
    (Reachable h → isFail h v = true →
       ∃ m dv, getField h v "message" = some (Value.str m) ∧
               getField h v "data" = some dv) := by
  constructor
  · intro hrm hf
    obtain ⟨r, o, rfl, hc, hs⟩ := isFail_ref_discriminated h v hf
    obtain ⟨hm, hd⟩ :=
      reachableM_discriminated_has_fields h hrm o (List.getElem?_mem hc) hs
    obtain ⟨mv, hmv⟩ := Option.isSome_iff_exists.mp hm
    obtain ⟨dv, hdv⟩ := Option.isSome_iff_exists.mp hd
    exact ⟨mv, dv, (getField_of_getElem h r o hc "message").trans hmv,
           (getField_of_getElem h r o hc "data").trans hdv⟩
  · intro hr hf
    obtain ⟨r, o, rfl, hc, hs⟩ := isFail_ref_discriminated h v hf
    obtain ⟨m, dv, hm, hd⟩ :=
      reachable_discriminated_has_fields h hr o (List.getElem?_mem hc) hs
    exact ⟨m, dv, (getField_of_getElem h r o hc "message").trans hm,
           (getField_of_getElem h r o hc "data").trans hd⟩

/-- Witness for the amended C8: the presence part on a heap where the
message was mutated to a number, and the string-typedness part on the
mutation-free heap after one construction. -/
theorem isFail_guarantees_fields_amended_witness :
    (∃ mv dv,
        getField (setField (mkFail initHeap "x" none).1
            (mkFail initHeap "x" none).2 "message" (.num 7))
          (mkFail initHeap "x" none).2 "message" = some mv ∧
        getField (setField (mkFail initHeap "x" none).1
            (mkFail initHeap "x" none).2 "message" (.num 7))
          (mkFail initHeap "x" none).2 "data" = some dv) ∧
    (∃ m dv,
        getField (mkFail initHeap "x" none).1 (mkFail initHeap "x" none).2
          "message" = some (Value.str m) ∧
        getField (mkFail initHeap "x" none).1 (mkFail initHeap "x" none).2
          "data" = some dv) :=
  ⟨(isFail_guarantees_fields_amended
        (setField (mkFail initHeap "x" none).1
          (mkFail initHeap "x" none).2 "message" (.num 7))
        (mkFail initHeap "x" none).2).1
      (ReachableM.set (mkFail initHeap "x" none).1
        (mkFail initHeap "x" none).2 "message" (.num 7)
        (ReachableM.mk initHeap "x" none ReachableM.init))
      rfl,
   (isFail_guarantees_fields_amended (mkFail initHeap "x" none).1
        (mkFail initHeap "x" none).2).2
      (Reachable.mk initHeap "x" none Reachable.init) rfl⟩

/-- C9 — `isFail` tests only the presence of the discriminant key: any
object carrying the `__fail__` symbol is accepted whatever value is stored
under the key, even though the `Fail` interface declares that value to be
the literal `true`. -/
theorem isFail_tests_presence_only (h : Heap) (r : Nat) (o : Obj) (w : Value)
    (hr : h[r]? = some o) (hs : o.symKeys.lookup __fail__ = some w) :
    isFail h (.ref r) = true := by
  show (isObject (.ref r) &&
        match h[r]? with
        | some o => hasSym o __fail__
        | none => false) = true
  rw [hr]
  show (isObject (.ref r) && (o.symKeys.lookup __fail__).isSome) = true
  rw [hs]
  rfl

/-- Witness for C9: an object storing `false` under the discriminant symbol
is still accepted. -/
theorem isFail_tests_presence_only_witness :
    isFail [⟨[], [(0, Value.boolean false)], false⟩] (.ref 0) = true :=
  isFail_tests_presence_only _ 0 ⟨[], [(0, Value.boolean false)], false⟩
    (.boolean false) rfl rfl

/-- C10 — Passing `undefined` explicitly as the data argument behaves
exactly like omitting it: the two calls build identical results and the
`data` field is the shared default `empty` object's reference. -/
theorem mkFail_explicit_undefined (h : Heap) (m : String) :
    mkFail h m (some .undef) = mkFail h m none ∧
    getField (mkFail h m (some .undef)).1 (mkFail h m (some .undef)).2 "data"
      = some (.ref emptyRef) :=
  ⟨rfl, getField_mkFail_data h m (some .undef)⟩

end Failerr
